import Mathlib

/-!
  Verification development for the Chilean-law MCP query engine.

  The definitions below are shallow embeddings of the repository's
  TypeScript query/resolution logic:
  * the citation parser and validator (`validate-citation.ts`),
  * the response-metadata envelope (`utils/metadata.ts`),
  * the LeyChile ingestion parser (`scripts/lib/parser.ts`),
  * and, where the implementation file is absent from the snapshot and only
    its tests/callers are available, models built from the specification
    (marked `Modelled from the spec:` in their doc comments).

  Strings are processed as `List Char`; JavaScript regular-expression
  behaviour (lazy/greedy groups, case-insensitive matching, `\s`, `\b`)
  is implemented by dedicated matching functions whose search order follows
  the backtracking order of the JS regex engine on the patterns concerned.
-/

namespace ChileanLaw

/-! ### JavaScript string primitives -/

/-- The characters matched by the JS regex class `\s` (and trimmed by
`String.prototype.trim`), restricted to the code points that can occur in
this corpus: ASCII whitespace, NBSP, LINE/PARAGRAPH SEPARATOR and BOM. -/
def isJsWs (c : Char) : Bool :=
  c == ' ' || c == '\t' || c == '\n' || c == '\r' ||
  c == Char.ofNat 0x0b || c == Char.ofNat 0x0c ||
  c == Char.ofNat 0x00a0 || c == Char.ofNat 0x2028 ||
  c == Char.ofNat 0x2029 || c == Char.ofNat 0xfeff

/-- JS `String.prototype.toLowerCase`, restricted to ASCII and Latin-1
letters (the alphabet of this corpus). `×` (0xd7) is not a letter and is
left unchanged, matching Unicode lowercasing on the Latin-1 block. -/
def jsToLower (c : Char) : Char :=
  if 'A' ≤ c && c ≤ 'Z' then Char.ofNat (c.toNat + 32)
  else if Char.ofNat 0xc0 ≤ c && c ≤ Char.ofNat 0xde && c ≠ Char.ofNat 0xd7 then
    Char.ofNat (c.toNat + 32)
  else c

/-- Case-insensitive character comparison as performed by the `/i` regex
flag on the patterns in scope (ASCII/Latin-1 simple case folding). -/
def charCI (a b : Char) : Bool := jsToLower a == jsToLower b

/-- JS `String.prototype.trim` (strips `\s` from both ends). -/
def jsTrim (cs : List Char) : List Char :=
  ((cs.dropWhile isJsWs).reverse.dropWhile isJsWs).reverse

/-- Lowercase a whole string (JS `toLowerCase`). -/
def lowerChars (cs : List Char) : List Char := cs.map jsToLower

/-- The character class `[0-9A-Za-z()]` of the citation section-token
pattern. -/
def isSectionTokenChar (c : Char) : Bool := c.isAlphanum || c == '(' || c == ')'

/-- Match a literal keyword case-insensitively at the head of the input,
returning the remainder. -/
def matchKeywordCI : List Char → List Char → Option (List Char)
  | [], cs => some cs
  | _, [] => none
  | p :: ps, c :: cs => if charCI p c then matchKeywordCI ps cs else none

/-- Match `\s+` (one or more whitespace characters, maximal munch — exact
here because every continuation of the patterns in scope starts with a
non-whitespace character). -/
def matchWsPlus (cs : List Char) : Option (List Char) :=
  match cs with
  | c :: rest => if isJsWs c then some (rest.dropWhile isJsWs) else none
  | [] => none

/-- Match `([0-9A-Za-z()]+)$`: the whole remaining input must be one or
more section-token characters; returns the token. -/
def matchTokenToEnd (cs : List Char) : Option (List Char) :=
  if cs.isEmpty then none
  else if cs.all isSectionTokenChar then some cs else none

/-- Match `\s+(.+)$` with JS backtracking: the greedy `\s+` first takes the
maximal whitespace run and gives characters back (down to one) until the
rest is non-empty and free of `\n` (which `.` cannot match). Returns the
text captured by `(.+)`. -/
def wsDotSearch (cs : List Char) : Nat → Option (List Char)
  | 0 => none
  | j + 1 =>
    let rest := cs.drop (j + 1)
    if !rest.isEmpty && rest.all (fun c => !(c == '\n')) then some rest
    else wsDotSearch cs j

/-- `\s+(.+)$` entry point: whitespace run bounded by the maximal run. -/
def matchWsThenDotPlus (cs : List Char) : Option (List Char) :=
  wsDotSearch cs (cs.takeWhile isJsWs).length

/-- Match the lazy group of `^(.+?)<suffix>$`: try the shortest non-empty
prefix first (each prefix character must not be `\n`), calling the given
suffix matcher on the remainder. Returns (group 1, suffix result). -/
def lazySplit (suffix : List Char → Option α) : List Char → List Char →
    Option (List Char × α)
  | _, [] => none
  | acc, c :: rest =>
    if c == '\n' then none
    else
      match suffix rest with
      | some a => some ((c :: acc).reverse, a)
      | none => lazySplit suffix (c :: acc) rest

/-! ### Citation parser (`validate-citation.ts`, `parseCitation`) -/

/-- Result of `parseCitation`. -/
structure ParsedCitation where
  documentRef : String
  sectionRef : Option String
deriving DecidableEq, Repr

/-- Match `^Section\s+([0-9A-Za-z()]+)\s+(.+)$` (case-insensitive):
returns (section token, raw document part). The greedy token run needs no
backtracking because a shortened token would abut a token character where
`\s` is required. -/
def matchSectionFirstShape (cs : List Char) : Option (List Char × List Char) :=
  match matchKeywordCI "section".toList cs with
  | none => none
  | some r0 =>
    match matchWsPlus r0 with
    | none => none
    | some r1 =>
      let tok := r1.takeWhile isSectionTokenChar
      if tok.isEmpty then none
      else
        match matchWsThenDotPlus (r1.dropWhile isSectionTokenChar) with
        | none => none
        | some doc => some (tok, doc)

/-- Apply `^Section\s+([tok]+)\s*[,;]\s+/i → "Section $1 "`: normalize an
optional comma/semicolon after the section token. Returns the input
unchanged when the pattern does not match. -/
def normalizeSectionFirst (cs : List Char) : List Char :=
  match matchKeywordCI "section".toList cs with
  | none => cs
  | some r0 =>
    match matchWsPlus r0 with
    | none => cs
    | some r1 =>
      let tok := r1.takeWhile isSectionTokenChar
      if tok.isEmpty then cs
      else
        let r2 := (r1.dropWhile isSectionTokenChar).dropWhile isJsWs
        match r2 with
        | c :: r3 =>
          if c == ',' || c == ';' then
            match r3 with
            | d :: _ =>
              if isJsWs d then
                "Section ".toList ++ tok ++ [' '] ++ r3.dropWhile isJsWs
              else cs
            | [] => cs
          else cs
        | [] => cs

/-- Suffix matcher for `\s+s\s+([tok]+)$` (case-insensitive `s`). -/
def suffixLetterS (cs : List Char) : Option (List Char) :=
  match matchWsPlus cs with
  | none => none
  | some r0 =>
    match r0 with
    | c :: r1 =>
      if charCI 's' c then
        match matchWsPlus r1 with
        | none => none
        | some r2 => matchTokenToEnd r2
      else none
    | [] => none

/-- Suffix matcher for `\s+s\.\s+([tok]+)$`. -/
def suffixLetterSDot (cs : List Char) : Option (List Char) :=
  match matchWsPlus cs with
  | none => none
  | some r0 =>
    match r0 with
    | c :: r1 =>
      if charCI 's' c then
        match r1 with
        | d :: r2 =>
          if d == '.' then
            match matchWsPlus r2 with
            | none => none
            | some r3 => matchTokenToEnd r3
          else none
        | [] => none
      else none
    | [] => none

/-- Suffix matcher for `\s+Section\s+([tok]+)$` (case-insensitive). -/
def suffixSectionWord (cs : List Char) : Option (List Char) :=
  match matchWsPlus cs with
  | none => none
  | some r0 =>
    match matchKeywordCI "section".toList r0 with
    | none => none
    | some r1 =>
      match matchWsPlus r1 with
      | none => none
      | some r2 => matchTokenToEnd r2

/-- Suffix matcher for `\s*[,;]\s+<rest>$` given a matcher for `<rest>`:
optional whitespace, a comma or semicolon, mandatory whitespace, rest. -/
def suffixCommaThen (rest : List Char → Option α) (cs : List Char) : Option α :=
  match cs.dropWhile isJsWs with
  | c :: r0 =>
    if c == ',' || c == ';' then
      match matchWsPlus r0 with
      | none => none
      | some r1 => rest r1
    else none
  | [] => none

/-- Suffix matcher for the comma-normalization of the `s`-shapes:
`\s*[,;]\s+s\s+([tok]+)$`. Returns the token. -/
def suffixCommaS (cs : List Char) : Option (List Char) :=
  suffixCommaThen
    (fun r =>
      match r with
      | c :: r1 =>
        if charCI 's' c then
          match matchWsPlus r1 with
          | none => none
          | some r2 => matchTokenToEnd r2
        else none
      | [] => none) cs

/-- Suffix matcher for `\s*[,;]\s+s\.\s+([tok]+)$`. -/
def suffixCommaSDot (cs : List Char) : Option (List Char) :=
  suffixCommaThen
    (fun r =>
      match r with
      | c :: r1 =>
        if charCI 's' c then
          match r1 with
          | d :: r2 =>
            if d == '.' then
              match matchWsPlus r2 with
              | none => none
              | some r3 => matchTokenToEnd r3
            else none
          | [] => none
        else none
      | [] => none) cs

/-- Suffix matcher for `\s*[,;]\s+Section\s+([tok]+)$`. -/
def suffixCommaSectionWord (cs : List Char) : Option (List Char) :=
  suffixCommaThen
    (fun r =>
      match matchKeywordCI "section".toList r with
      | none => none
      | some r1 =>
        match matchWsPlus r1 with
        | none => none
        | some r2 => matchTokenToEnd r2) cs

/-- Apply `^(.+?)\s*[,;]\s+s\s+([tok]+)$/i → "$1 s $2"`. -/
def normalizeSectionLastComma (cs : List Char) : List Char :=
  match lazySplit suffixCommaS [] cs with
  | some (g1, tok) => g1 ++ " s ".toList ++ tok
  | none => cs

/-- Apply `^(.+?)\s*[,;]\s+s\.\s+([tok]+)$/i → "$1 s. $2"`. -/
def normalizeSectionLastCommaDot (cs : List Char) : List Char :=
  match lazySplit suffixCommaSDot [] cs with
  | some (g1, tok) => g1 ++ " s. ".toList ++ tok
  | none => cs

/-- Apply `^(.+?)\s*[,;]\s+Section\s+([tok]+)$/i → "$1 Section $2"`. -/
def normalizeSectionWordLast (cs : List Char) : List Char :=
  match lazySplit suffixCommaSectionWord [] cs with
  | some (g1, tok) => g1 ++ " Section ".toList ++ tok
  | none => cs

/-- `parseCitation` from `validate-citation.ts`: try, in order,
`Section <ref> <doc>`, `<doc> s <ref>` / `<doc> s. <ref>`,
`<doc> Section <ref>`, then fall back to a bare document reference.
Empty/whitespace-only input yields `none`. -/
def parseCitation (citation : String) : Option ParsedCitation :=
  let trimmed := jsTrim citation.toList
  if trimmed.isEmpty then none
  else
    match matchSectionFirstShape (normalizeSectionFirst trimmed) with
    | some (tok, doc) => some ⟨(jsTrim doc).asString, some tok.asString⟩
    | none =>
      let nsl := normalizeSectionLastCommaDot (normalizeSectionLastComma trimmed)
      match lazySplit suffixLetterS [] nsl with
      | some (g1, tok) => some ⟨(jsTrim g1).asString, some tok.asString⟩
      | none =>
        match lazySplit suffixLetterSDot [] nsl with
        | some (g1, tok) => some ⟨(jsTrim g1).asString, some tok.asString⟩
        | none =>
          match lazySplit suffixSectionWord []
              (normalizeSectionWordLast trimmed) with
          | some (g1, tok) => some ⟨(jsTrim g1).asString, some tok.asString⟩
          | none => some ⟨trimmed.asString, none⟩

/-! ### Persisted store model (read surface of spec §6) -/

/-- A row of `legal_documents` (the columns the embedded operations read). -/
structure Document where
  id : String
  title : String
  title_en : Option String
  short_name : Option String
  status : String
  url : Option String
deriving DecidableEq, Repr

/-- A row of `legal_provisions` (the columns the embedded operations read). -/
structure Provision where
  document_id : String
  provision_ref : String
  chapter : Option String
  «section» : String
deriving DecidableEq, Repr

/-- A row of `eu_references` (the columns the compliance classifier reads). -/
structure EuReference where
  document_id : String
  eu_document_id : String
  implementation_status : String
deriving DecidableEq, Repr

/-- The persisted store: table contents in insertion order (the stable
order SQLite returns for unordered `SELECT`s on these tables), plus the
capability bit for the optional EU table group. -/
structure DB where
  documents : List Document
  provisions : List Provision
  euAvailable : Bool
  euReferences : List EuReference
deriving Repr

/-- Does `hay` start with `needle`? -/
def seqStartsWith : List Char → List Char → Bool
  | [], _ => true
  | _ :: _, [] => false
  | a :: as, b :: bs => a == b && seqStartsWith as bs

/-- Contiguous-substring search (`LIKE '%needle%'` on already-folded
text). -/
def seqContains (hay needle : List Char) : Bool :=
  match hay with
  | [] => needle.isEmpty
  | _ :: rest => seqStartsWith needle hay || seqContains rest needle

/-- Modelled from the spec: `resolveDocumentId` (src/utils/statute-id.ts)
is absent from the repository snapshot — only its tests and callers are
present. Per spec §4.2: empty/whitespace-only input is no match (the trim
only guards emptiness; matching uses the input verbatim); otherwise try,
first hit winning, (1) exact canonical-ID match, (2) case-insensitive
native-title match, (3) case-insensitive translated-title match,
(4) case-insensitive substring (LIKE-style) match on either title,
returning the first match in the store's stable order. -/
def resolveDocumentId (db : DB) (input : String) : Option String :=
  if (jsTrim input.toList).isEmpty then none
  else
    match db.documents.find? (fun d => d.id == input) with
    | some d => some d.id
    | none =>
      match db.documents.find?
          (fun d => lowerChars d.title.toList == lowerChars input.toList) with
      | some d => some d.id
      | none =>
        match db.documents.find? (fun d =>
            match d.title_en with
            | some te => lowerChars te.toList == lowerChars input.toList
            | none => false) with
        | some d => some d.id
        | none =>
          match db.documents.find? (fun d =>
              seqContains (lowerChars d.title.toList)
                (lowerChars input.toList) ||
              (match d.title_en with
               | some te =>
                 seqContains (lowerChars te.toList) (lowerChars input.toList)
               | none => false)) with
          | some d => some d.id
          | none => none

/-! ### Citation validation (`validate-citation.ts`, `validateCitationTool`) -/

/-- The `results` payload of `validateCitationTool`. -/
structure ValidateCitationResult where
  valid : Bool
  citation : String
  normalized : Option String
  document_id : Option String
  document_title : Option String
  provision_ref : Option String
  status : Option String
  warnings : List String
deriving DecidableEq, Repr

def repealedWarning : String := "WARNING: This statute has been repealed."

def amendedWarning : String :=
  "Note: This statute has been amended. Verify you are referencing the current version."

/-- `validateCitationTool`. The `none` result models the JavaScript
`TypeError` thrown by the unguarded row read after resolution
(`db.prepare(...).get(docId) as {...}` followed by `doc.status`) when the
resolver returns an ID with no row in `legal_documents`; every other path
produces a result. The `_metadata` envelope is generated independently of
the citation logic and is modelled separately by
`generateResponseMetadata`. -/
def validateCitationTool (db : DB) (citation : String) :
    Option ValidateCitationResult :=
  match parseCitation citation with
  | none =>
    some ⟨false, citation, none, none, none, none, none,
      ["Could not parse citation format"]⟩
  | some parsed =>
    match resolveDocumentId db parsed.documentRef with
    | none =>
      some ⟨false, citation, none, none, none, none, none,
        ["Document not found: \"" ++ parsed.documentRef ++ "\""]⟩
    | some docId =>
      match db.documents.find? (fun d => d.id == docId) with
      | none => none
      | some doc =>
        let warnings :=
          if doc.status = "repealed" then [repealedWarning]
          else if doc.status = "amended" then [amendedWarning]
          else []
        match parsed.sectionRef with
        | some secRef =>
          match db.provisions.find? (fun p =>
              p.document_id == docId &&
              (p.provision_ref == secRef ||
               p.provision_ref == "s" ++ secRef ||
               p.«section» == secRef)) with
          | none =>
            some ⟨false, citation, none, some docId, some doc.title, none, none,
              warnings ++
                ["Provision \"Section " ++ secRef ++ "\" not found in " ++
                  doc.title]⟩
          | some provision =>
            some ⟨true, citation,
              some ("Section " ++ secRef ++ ", " ++ doc.title),
              some docId, some doc.title, some provision.provision_ref,
              some doc.status, warnings⟩
        | none =>
          some ⟨true, citation, some doc.title, some docId, some doc.title,
            none, some doc.status, warnings⟩

/-! ### Concrete store used for witnesses and counterexamples
(mirrors `createCoreDb`/`addEuTables` from the repository's unit tests) -/

def testDocuments : List Document :=
  [⟨"doc-data", "Ley de Datos", some "Data Law", some "LD", "amended",
      some "https://example/doc-data"⟩,
   ⟨"doc-repealed", "Ley Derogada", some "Repealed Law", some "LR", "repealed",
      some "https://example/doc-repealed"⟩,
   ⟨"doc-future", "Ley Futura", some "Future Law", some "LF", "not_yet_in_force",
      some "https://example/doc-future"⟩,
   ⟨"doc-complete", "Ley Completa", some "Complete Law", some "LC", "in_force",
      some "https://example/doc-complete"⟩,
   ⟨"doc-unknown", "Ley Incierta", some "Unknown Law", some "LU", "in_force",
      some "https://example/doc-unknown"⟩,
   ⟨"doc-noeu", "Ley Sin EU", some "No EU Law", some "LNE", "in_force",
      some "https://example/doc-noeu"⟩,
   ⟨"doc-nourl", "Ley Sin URL", some "No URL Law", some "LSU", "in_force",
      none⟩]

def testProvisions : List Provision :=
  [⟨"doc-data", "art1", some "Capítulo I", "1"⟩,
   ⟨"doc-data", "s2", some "Capítulo I", "2"⟩,
   ⟨"doc-repealed", "art1", some "Capítulo Único", "1"⟩,
   ⟨"doc-future", "art1", some "Capítulo Único", "1"⟩,
   ⟨"doc-complete", "art1", some "Capítulo Único", "1"⟩,
   ⟨"doc-unknown", "art1", some "Capítulo Único", "1"⟩,
   ⟨"doc-noeu", "art1", some "Capítulo Único", "1"⟩,
   ⟨"doc-nourl", "art1", some "Capítulo Único", "1"⟩]

def testEuReferences : List EuReference :=
  [⟨"doc-data", "regulation:2016/679", "complete"⟩,
   ⟨"doc-data", "regulation:2016/679", "partial"⟩,
   ⟨"doc-repealed", "directive:2022/2555", "partial"⟩,
   ⟨"doc-complete", "regulation:2016/679", "complete"⟩,
   ⟨"doc-unknown", "regulation:2016/679", "unknown"⟩]

def testDb : DB := ⟨testDocuments, testProvisions, true, testEuReferences⟩

example : resolveDocumentId testDb "doc-data" = some "doc-data" := by decide
example : resolveDocumentId testDb "Ley de Datos" = some "doc-data" := by decide
example : resolveDocumentId testDb "Data Law" = some "doc-data" := by decide
example : resolveDocumentId testDb "   " = none := by decide
example : resolveDocumentId testDb "missing" = none := by decide

example :
    (validateCitationTool testDb "Section 1 Ley de Datos").map (·.valid) =
      some true := by decide
example :
    (validateCitationTool testDb "Ley de Datos s 999").map (·.valid) =
      some false := by decide
example :
    (validateCitationTool testDb "Section 13(2), Ley de Datos").map (·.valid) =
      some false := by decide
example :
    (validateCitationTool testDb "Ley Derogada").map (·.valid) = some true := by
  decide
example :
    (validateCitationTool testDb "Ley Sin URL").map (·.warnings) = some [] := by
  decide

example : parseCitation "Section 1 Ley de Datos" = some ⟨"Ley de Datos", some "1"⟩ := by decide
example : parseCitation "Ley de Datos s 1" = some ⟨"Ley de Datos", some "1"⟩ := by decide
example : parseCitation "Ley de Datos, Section 1" = some ⟨"Ley de Datos", some "1"⟩ := by decide
example : parseCitation "Ley de Datos s. 1" = some ⟨"Ley de Datos", some "1"⟩ := by decide
example : parseCitation "Section 13(2), Ley de Datos" = some ⟨"Ley de Datos", some "13(2)"⟩ := by decide
example : parseCitation "Ley de Datos" = some ⟨"Ley de Datos", none⟩ := by decide
example : parseCitation "   " = none := by decide
example : parseCitation "Ley de Datos, s 1" = some ⟨"Ley de Datos", some "1"⟩ := by decide
example : parseCitation "Ley Sin URL s 999" = some ⟨"Ley Sin URL", some "999"⟩ := by decide

/-- The spec-modelled resolver only ever returns canonical IDs of rows that
are present in `legal_documents` (it reads no other table). -/
theorem resolveDocumentId_mem (db : DB) (s docId : String)
    (h : resolveDocumentId db s = some docId) :
    ∃ d ∈ db.documents, d.id = docId := by
  unfold resolveDocumentId at h
  split at h
  · cases h
  · split at h
    next d hfind =>
      injection h with h
      exact ⟨d, List.mem_of_find?_eq_some hfind, h⟩
    next =>
      split at h
      next d hfind =>
        injection h with h
        exact ⟨d, List.mem_of_find?_eq_some hfind, h⟩
      next =>
        split at h
        next d hfind =>
          injection h with h
          exact ⟨d, List.mem_of_find?_eq_some hfind, h⟩
        next =>
          split at h
          next d hfind =>
            injection h with h
            exact ⟨d, List.mem_of_find?_eq_some hfind, h⟩
          next => cases h

/-- C1: citation shape matching tries the four shapes in the fixed order
(Section-first, then `<doc> s <ref>` / `<doc> s. <ref>`, then
`<doc> Section <ref>`, then bare document reference) with the first
structural match winning, so the four sample citations all parse to the
same (document-reference, section-reference) pair and validate to the
same document (`doc-data`) and provision (`art1`). -/
theorem C1_citation_shapes_round_trip :
    parseCitation "Section 1 Ley de Datos" = some ⟨"Ley de Datos", some "1"⟩ ∧
    parseCitation "Ley de Datos s 1" = some ⟨"Ley de Datos", some "1"⟩ ∧
    parseCitation "Ley de Datos, Section 1" =
      some ⟨"Ley de Datos", some "1"⟩ ∧
    parseCitation "Ley de Datos s. 1" = some ⟨"Ley de Datos", some "1"⟩ ∧
    ((validateCitationTool testDb "Section 1 Ley de Datos").map fun r =>
      (r.valid, r.document_id, r.provision_ref)) =
        some (true, some "doc-data", some "art1") ∧
    ((validateCitationTool testDb "Ley de Datos s 1").map fun r =>
      (r.valid, r.document_id, r.provision_ref)) =
        some (true, some "doc-data", some "art1") ∧
    ((validateCitationTool testDb "Ley de Datos, Section 1").map fun r =>
      (r.valid, r.document_id, r.provision_ref)) =
        some (true, some "doc-data", some "art1") ∧
    ((validateCitationTool testDb "Ley de Datos s. 1").map fun r =>
      (r.valid, r.document_id, r.provision_ref)) =
        some (true, some "doc-data", some "art1") := by
  decide

/-- C10: `validateCitationTool` returns a result (never the modelled
`TypeError` of the unguarded post-resolution row read) for every citation,
provided every non-null ID the resolver returns has a matching row in
`legal_documents`. -/
theorem C10_validate_citation_total (db : DB)
    (hres : ∀ s docId, resolveDocumentId db s = some docId →
      ∃ d ∈ db.documents, d.id = docId) (c : String) :
    (validateCitationTool db c).isSome = true := by
  unfold validateCitationTool
  rcases hp : parseCitation c with _ | parsed
  · rfl
  · dsimp only
    rcases hr : resolveDocumentId db parsed.documentRef with _ | docId
    · rfl
    · obtain ⟨d, hmem, hid⟩ := hres _ _ hr
      rcases hf : db.documents.find? (fun d => d.id == docId) with _ | doc
      · exfalso
        have hne := List.find?_eq_none.mp hf d hmem
        simp [hid] at hne
      · rcases hs : parsed.sectionRef with _ | secRef
        · simp [hf, hs]
        · rcases hprov : db.provisions.find? (fun p =>
              p.document_id == docId &&
              (p.provision_ref == secRef ||
               p.provision_ref == "s" ++ secRef ||
               p.«section» == secRef)) with _ | prov <;>
            simp [hf, hs, hprov]

/-- Witness for C10: the store invariant holds for the concrete test store
(indeed for every store, by `resolveDocumentId_mem`), and the tool is
defined on a concrete citation. -/
theorem C10_validate_citation_total_witness :
    (validateCitationTool testDb "Ley de Datos s 1").isSome = true :=
  C10_validate_citation_total testDb
    (fun s docId h => resolveDocumentId_mem testDb s docId h)
    "Ley de Datos s 1"

/-- C2 counterexample: the claim "if 'in_force' it carries no warnings"
fails — `"Ley Sin URL s 999"` resolves to `doc-nourl`, whose status is
`in_force`, yet the result carries a (provision-not-found) warning. -/
theorem C2_counterexample_in_force_warning :
    ((testDb.documents.find? (fun d => d.id == "doc-nourl")).map
        (·.status) = some "in_force") ∧
    ((validateCitationTool testDb "Ley Sin URL s 999").map
        (fun r => (r.document_id, decide (r.warnings = [])))) =
      some (some "doc-nourl", false) := by
  decide

/-- C2 (amended): for every citation whose document part resolves, a
`repealed` document always yields the repeal warning and an `amended`
document the verify-currency warning; an `in_force` document carries no
status-derived warnings — its warnings are empty whenever the citation is
valid, and consist of exactly the provision-not-found message otherwise; a
repealed document cited with no section is valid, and a section with no
matching `provision_ref`/`section` row is invalid. -/
theorem C2_status_warnings (db : DB) (c : String) (parsed : ParsedCitation)
    (docId : String) (doc : Document) (r : ValidateCitationResult)
    (hp : parseCitation c = some parsed)
    (hr : resolveDocumentId db parsed.documentRef = some docId)
    (hf : db.documents.find? (fun d => d.id == docId) = some doc)
    (hv : validateCitationTool db c = some r) :
    (doc.status = "repealed" → repealedWarning ∈ r.warnings) ∧
    (doc.status = "amended" → amendedWarning ∈ r.warnings) ∧
    (doc.status = "in_force" → r.valid = true → r.warnings = []) ∧
    (doc.status = "in_force" → r.valid = false →
      ∃ secRef, parsed.sectionRef = some secRef ∧
        r.warnings = ["Provision \"Section " ++ secRef ++ "\" not found in " ++
          doc.title]) ∧
    (doc.status = "repealed" → parsed.sectionRef = none → r.valid = true) ∧
    (∀ secRef, parsed.sectionRef = some secRef →
      db.provisions.find? (fun p =>
        p.document_id == docId &&
        (p.provision_ref == secRef || p.provision_ref == "s" ++ secRef ||
         p.«section» == secRef)) = none → r.valid = false) := by
  unfold validateCitationTool at hv
  rcases hs : parsed.sectionRef with _ | secRef
  · simp only [hp, hr, hf, hs] at hv
    injection hv with hv
    subst hv
    refine ⟨fun hst => ?_, fun hst => ?_, fun hst _ => ?_,
      fun hst habs => ?_, fun _ _ => rfl, fun secRef habs => ?_⟩
    · simp [hst]
    · simp [hst]
    · simp [hst]
    · simp at habs
    · cases habs
  · simp only [hp, hr, hf, hs] at hv
    rcases hprov : db.provisions.find? (fun p =>
        p.document_id == docId &&
        (p.provision_ref == secRef || p.provision_ref == "s" ++ secRef ||
         p.«section» == secRef)) with _ | prov
    · simp only [hprov] at hv
      injection hv with hv
      subst hv
      refine ⟨fun hst => ?_, fun hst => ?_, fun hst habs => ?_,
        fun hst _ => ?_, fun _ habs => ?_, fun _ _ _ => rfl⟩
      · simp [hst]
      · simp [hst]
      · simp at habs
      · exact ⟨secRef, rfl, by simp [hst]⟩
      · cases habs
    · simp only [hprov] at hv
      injection hv with hv
      subst hv
      refine ⟨fun hst => ?_, fun hst => ?_, fun hst _ => ?_,
        fun hst habs => ?_, fun _ _ => rfl, fun s2 hseq habs => ?_⟩
      · simp [hst]
      · simp [hst]
      · simp [hst]
      · simp at habs
      · injection hseq with hseq
        subst hseq
        rw [hprov] at habs
        cases habs

/-- Witness for C2 (amended): the repealed document `Ley Derogada`, cited
with no section, validates to valid=true with the repeal warning. -/
theorem C2_status_warnings_witness :
    repealedWarning ∈ (ValidateCitationResult.mk true "Ley Derogada"
      (some "Ley Derogada") (some "doc-repealed") (some "Ley Derogada") none
      (some "repealed") [repealedWarning]).warnings :=
  (C2_status_warnings testDb "Ley Derogada" ⟨"Ley Derogada", none⟩
      "doc-repealed"
      ⟨"doc-repealed", "Ley Derogada", some "Repealed Law", some "LR",
        "repealed", some "https://example/doc-repealed"⟩
      (ValidateCitationResult.mk true "Ley Derogada" (some "Ley Derogada")
        (some "doc-repealed") (some "Ley Derogada") none (some "repealed")
        [repealedWarning])
      (by decide) (by decide) (by decide) (by decide)).1 rfl

/-- Store exhibiting the divergence of C7: a provision whose
`provision_ref` is the `s`-prefixed form of a parenthesized token. -/
def c7Db : DB :=
  ⟨[⟨"doc-x", "Ley X", none, none, "in_force", none⟩],
   [⟨"doc-x", "s13(2)", none, "99"⟩], false, []⟩

/-- C7 counterexample: the claim "valid=false unless the token exactly
matches a stored provision_ref or section" fails — the token `13(2)`
matches no `provision_ref` and no `section` of `doc-x`, yet the citation
is valid=true because the code also accepts `provision_ref = "s" + token`
(here `s13(2)`). -/
theorem C7_counterexample :
    parseCitation "Ley X s 13(2)" = some ⟨"Ley X", some "13(2)"⟩ ∧
    ((validateCitationTool c7Db "Ley X s 13(2)").map (·.valid) = some true) ∧
    c7Db.provisions.all (fun p =>
      !(p.provision_ref == "13(2)") && !(p.«section» == "13(2)")) = true := by
  decide

/-- C7 (amended): a parenthesized sub-reference such as `13(2)` is
accepted lexically by the section-token pattern, so the citation parses;
validation then reports valid=false unless the token exactly matches a
stored `provision_ref`, an `s`-prefixed `provision_ref`
(`provision_ref = "s" + token`), or a `section` of the resolved
document. -/
theorem C7_parenthesized_token_lookup :
    parseCitation "Section 13(2), Ley de Datos" =
      some ⟨"Ley de Datos", some "13(2)"⟩ ∧
    ∀ (db : DB) (c : String) (parsed : ParsedCitation) (secRef : String)
      (docId : String) (doc : Document) (r : ValidateCitationResult),
      parseCitation c = some parsed →
      parsed.sectionRef = some secRef →
      resolveDocumentId db parsed.documentRef = some docId →
      db.documents.find? (fun d => d.id == docId) = some doc →
      validateCitationTool db c = some r →
      (r.valid = true ↔ ∃ p ∈ db.provisions, p.document_id = docId ∧
        (p.provision_ref = secRef ∨ p.provision_ref = "s" ++ secRef ∨
         p.«section» = secRef)) := by
  refine ⟨by decide, ?_⟩
  intro db c parsed secRef docId doc r hp hs hr hf hv
  unfold validateCitationTool at hv
  simp only [hp, hr, hf, hs] at hv
  rcases hprov : db.provisions.find? (fun p =>
      p.document_id == docId &&
      (p.provision_ref == secRef || p.provision_ref == "s" ++ secRef ||
       p.«section» == secRef)) with _ | prov
  · simp only [hprov] at hv
    injection hv with hv
    subst hv
    simp only [show (false : Bool) = true ↔ False by simp, false_iff]
    rintro ⟨p, hmem, hdoc, hdisj⟩
    have hnone := List.find?_eq_none.mp hprov p hmem
    simp only [Bool.and_eq_true, Bool.or_eq_true, beq_iff_eq, not_and,
      not_or] at hnone
    rcases hdisj with h1 | h2 | h3
    · exact (hnone hdoc).1.1 h1
    · exact (hnone hdoc).1.2 h2
    · exact (hnone hdoc).2 h3
  · simp only [hprov] at hv
    injection hv with hv
    subst hv
    simp only [true_iff]
    refine ⟨prov, List.mem_of_find?_eq_some hprov, ?_⟩
    have hpred := List.find?_some hprov
    simp only [Bool.and_eq_true, Bool.or_eq_true, beq_iff_eq] at hpred
    exact ⟨hpred.1, by tauto⟩

/-- Witness for C7 (amended): at the counterexample store the citation is
valid, so a provision matching the three-way condition exists. -/
theorem C7_parenthesized_token_lookup_witness :
    ∃ p ∈ c7Db.provisions, p.document_id = "doc-x" ∧
      (p.provision_ref = "13(2)" ∨ p.provision_ref = "s" ++ "13(2)" ∨
       p.«section» = "13(2)") :=
  ((C7_parenthesized_token_lookup.2 c7Db "Ley X s 13(2)"
      ⟨"Ley X", some "13(2)"⟩ "13(2)" "doc-x"
      ⟨"doc-x", "Ley X", none, none, "in_force", none⟩
      (ValidateCitationResult.mk true "Ley X s 13(2)"
        (some "Section 13(2), Ley X") (some "doc-x") (some "Ley X")
        (some "s13(2)") (some "in_force") [])
      (by decide) (by decide) (by decide) (by decide) (by decide)).mp
    (by decide))

/-- C6: identity resolution tries, in order with the first hit winning,
exact canonical-ID match, case-insensitive native-title match,
case-insensitive translated-title match, then fuzzy/substring match;
`resolve(D.id) = D.id` for every stored document (whose canonical slug ID
is not whitespace-only); and empty, whitespace-only and unmatched inputs
yield "not found" (`none`) rather than an error (the function is total). -/
theorem C6_resolve_document_identity :
    (∀ (db : DB) (d : Document), d ∈ db.documents →
      (jsTrim d.id.toList).isEmpty = false →
      resolveDocumentId db d.id = some d.id) ∧
    (∀ db : DB, resolveDocumentId db "" = none) ∧
    (∀ db : DB, resolveDocumentId db "   " = none) ∧
    (∀ (db : DB) (s : String),
      (∀ d ∈ db.documents,
        d.id ≠ s ∧
        lowerChars d.title.toList ≠ lowerChars s.toList ∧
        (∀ te, d.title_en = some te →
          lowerChars te.toList ≠ lowerChars s.toList) ∧
        seqContains (lowerChars d.title.toList) (lowerChars s.toList) = false ∧
        (∀ te, d.title_en = some te →
          seqContains (lowerChars te.toList) (lowerChars s.toList) = false)) →
      resolveDocumentId db s = none) ∧
    (∀ (db : DB) (s : String) (d : Document),
      (jsTrim s.toList).isEmpty = false →
      db.documents.find? (fun d => d.id == s) = some d →
      resolveDocumentId db s = some d.id) := by
  refine ⟨?_, ?_, ?_, ?_, ?_⟩
  · intro db d hmem hne
    have hfind : ∃ d2, db.documents.find? (fun d2 => d2.id == d.id) = some d2 ∧
        d2.id = d.id := by
      rcases hf : db.documents.find? (fun d2 => d2.id == d.id) with _ | d2
      · exact absurd (by simp : (d.id == d.id) = true)
          (by simpa using List.find?_eq_none.mp hf d hmem)
      · exact ⟨d2, hf, by simpa using List.find?_some hf⟩
    obtain ⟨d2, hf, hid⟩ := hfind
    unfold resolveDocumentId
    rw [hne, hf]
    simp [hid]
  · intro db
    unfold resolveDocumentId
    rfl
  · intro db
    unfold resolveDocumentId
    rfl
  · intro db s hno
    simp only [String.toList] at hno
    unfold resolveDocumentId
    split
    · rfl
    · have h1 : db.documents.find? (fun d => d.id == s) = none :=
        List.find?_eq_none.mpr fun d hd => by
          simpa using (hno d hd).1
      have h2 : db.documents.find?
          (fun d => lowerChars d.title.toList == lowerChars s.toList) = none :=
        List.find?_eq_none.mpr fun d hd => by
          simpa using (hno d hd).2.1
      have h3 : db.documents.find? (fun d =>
          match d.title_en with
          | some te => lowerChars te.toList == lowerChars s.toList
          | none => false) = none :=
        List.find?_eq_none.mpr fun d hd => by
          rcases hte : d.title_en with _ | te
          · simp
          · simpa using (hno d hd).2.2.1 te hte
      have h4 : db.documents.find? (fun d =>
          seqContains (lowerChars d.title.toList) (lowerChars s.toList) ||
          (match d.title_en with
           | some te =>
             seqContains (lowerChars te.toList) (lowerChars s.toList)
           | none => false)) = none :=
        List.find?_eq_none.mpr fun d hd => by
          rcases hte : d.title_en with _ | te
          · simp [(hno d hd).2.2.2.1]
          · simp [(hno d hd).2.2.2.1, (hno d hd).2.2.2.2 te hte]
      rw [h1, h2, h3, h4]
  · intro db s d hne hf
    unfold resolveDocumentId
    rw [hne, hf]
    rfl

/-- Witness for C6: concrete fixed point and not-found results on the test
store. -/
theorem C6_resolve_document_identity_witness :
    resolveDocumentId testDb "doc-data" = some "doc-data" ∧
    resolveDocumentId testDb "   " = none :=
  ⟨C6_resolve_document_identity.1 testDb
      ⟨"doc-data", "Ley de Datos", some "Data Law", some "LD", "amended",
        some "https://example/doc-data"⟩
      (by decide) (by decide),
   C6_resolve_document_identity.2.2.1 testDb⟩

/-! ### Full-text query construction (spec-modelled, `utils/fts-query.ts`) -/

/-- Modelled from the spec: `sanitizeFtsInput` (src/utils/fts-query.ts) is
absent from the snapshot — only its unit tests are present. Spec §4.3:
characters with special FTS meaning (quotes, parentheses) are replaced
with spaces. -/
def sanitizeChar (c : Char) : Char :=
  if c == Char.ofNat 0x27 || c == '"' || c == '(' || c == ')' then ' ' else c

/-- Whitespace tokenizer (single left-to-right pass, accumulator holds the
current token reversed). -/
def splitWsAux : List Char → List Char → List (List Char)
  | [], acc => if acc.isEmpty then [] else [acc.reverse]
  | c :: rest, acc =>
    if isJsWs c then
      if acc.isEmpty then splitWsAux rest []
      else acc.reverse :: splitWsAux rest []
    else splitWsAux rest (c :: acc)

/-- Modelled from the spec: the token list of a raw query after
sanitization and whitespace collapsing. -/
def ftsTokens (q : String) : List String :=
  (splitWsAux (q.toList.map sanitizeChar) []).map List.asString

/-- Modelled from the spec: `sanitizeFtsInput` — sanitized tokens joined
by single spaces (collapsed whitespace, trimmed). -/
def sanitizeFtsInput (q : String) : String :=
  String.intercalate " " (ftsTokens q)

/-- Append the FTS trailing wildcard to the last token. -/
def wildcardLast : List String → List String
  | [] => []
  | [t] => [t ++ "*"]
  | t :: rest => t :: wildcardLast rest

/-- Modelled from the spec: `buildFtsQueryVariants` (src/utils/fts-query.ts)
is absent from the snapshot. Spec §4.3: 0 tokens → no variants; 1 token of
length < 3 → the literal token; 1 token of length ≥ 3 → literal then
trailing-wildcard; ≥ 2 tokens → quoted phrase, AND-conjunction, and
AND-conjunction with the last token wildcard-expanded, in that order. -/
def buildFtsQueryVariants (q : String) : List String :=
  match ftsTokens q with
  | [] => []
  | [t] => if t.length < 3 then [t] else [t, t ++ "*"]
  | t1 :: t2 :: ts =>
    ["\"" ++ String.intercalate " " (t1 :: t2 :: ts) ++ "\"",
     String.intercalate " AND " (t1 :: t2 :: ts),
     String.intercalate " AND " (wildcardLast (t1 :: t2 :: ts))]

/-- C3: full-text variant generation is a deterministic pure function of
the raw query; zero tokens yield no variants, a single short token only
the literal, a single token of length ≥ 3 the literal plus the wildcard
form, and two or more tokens exactly the quoted phrase, the AND-joined
conjunction, and the AND-joined conjunction with the last token
wildcard-expanded, in that order — including the spec's four concrete
examples. -/
theorem C3_fts_variant_generation :
    buildFtsQueryVariants "" = [] ∧
    buildFtsQueryVariants "   " = [] ∧
    buildFtsQueryVariants "ab" = ["ab"] ∧
    buildFtsQueryVariants "abc" = ["abc", "abc*"] ∧
    buildFtsQueryVariants "datos personales" =
      ["\"datos personales\"", "datos AND personales",
       "datos AND personales*"] ∧
    ∀ q : String,
      (ftsTokens q = [] → buildFtsQueryVariants q = []) ∧
      (∀ t, ftsTokens q = [t] → t.length < 3 →
        buildFtsQueryVariants q = [t]) ∧
      (∀ t, ftsTokens q = [t] → 3 ≤ t.length →
        buildFtsQueryVariants q = [t, t ++ "*"]) ∧
      (∀ t1 t2 ts, ftsTokens q = t1 :: t2 :: ts →
        buildFtsQueryVariants q =
          ["\"" ++ String.intercalate " " (t1 :: t2 :: ts) ++ "\"",
           String.intercalate " AND " (t1 :: t2 :: ts),
           String.intercalate " AND " (wildcardLast (t1 :: t2 :: ts))]) := by
  refine ⟨by decide, by decide, by decide, by decide, by decide, ?_⟩
  intro q
  refine ⟨?_, ?_, ?_, ?_⟩
  · intro h
    unfold buildFtsQueryVariants
    rw [h]
  · intro t h hlen
    unfold buildFtsQueryVariants
    rw [h]
    simp [hlen]
  · intro t h hlen
    unfold buildFtsQueryVariants
    rw [h]
    simp [Nat.not_lt.mpr hlen]
  · intro t1 t2 ts h
    unfold buildFtsQueryVariants
    rw [h]

/-- Witness for C3: the multi-token clause at the spec's example query. -/
theorem C3_fts_variant_generation_witness :
    buildFtsQueryVariants "datos personales" =
      ["\"datos personales\"", "datos AND personales",
       "datos AND personales*"] :=
  ((C3_fts_variant_generation.2.2.2.2.2 "datos personales").2.2.2
      "datos" "personales" [] (by decide)).trans (by decide)

/-! ### Search with variant retry (spec-modelled,
`tools/search-legislation.ts`) -/

/-- Modelled from the spec: the variant-retry loop of `searchLegislation`
(src/tools/search-legislation.ts), absent from the snapshot. The FTS index
is a function returning either result rows or a malformed-query failure
(`Except.error`); variants are attempted in order, a failure falls through
to the next variant, and when every variant fails the result is empty. -/
def trySearchVariants (fts : String → Except Unit (List α)) :
    List String → List α
  | [] => []
  | v :: rest =>
    match fts v with
    | .ok rs => rs
    | .error _ => trySearchVariants fts rest

/-- Modelled from the spec: `searchLegislation` issues the generated
variants against the FTS index through the retry loop (an empty variant
list short-circuits to an empty result by the `[]` case of the loop). -/
def searchLegislation (fts : String → Except Unit (List α)) (q : String) :
    List α :=
  trySearchVariants fts (buildFtsQueryVariants q)

/-- C4: the search attempts the generated variants in order and catches a
malformed-query failure on any variant, falling through to the next
instead of propagating (the loop's return type has no error case): a
variant that raises is skipped, a variant that succeeds supplies the
result, and if every variant fails the result set is empty. -/
theorem C4_search_variant_retry :
    ∀ (α : Type) (fts : String → Except Unit (List α)) (q : String),
      searchLegislation fts q =
        trySearchVariants fts (buildFtsQueryVariants q) ∧
      (∀ v rest rs, fts v = .error () →
        trySearchVariants fts rest = rs →
        trySearchVariants fts (v :: rest) = rs) ∧
      (∀ v rest rs, fts v = .ok rs →
        trySearchVariants fts (v :: rest) = rs) ∧
      (∀ vs, (∀ v ∈ vs, fts v = .error ()) →
        trySearchVariants fts vs = []) := by
  intro α fts q
  refine ⟨rfl, ?_, ?_, ?_⟩
  · intro v rest rs hv hrest
    unfold trySearchVariants
    rw [hv]
    exact hrest
  · intro v rest rs hv
    unfold trySearchVariants
    rw [hv]
  · intro vs hall
    induction vs with
    | nil => rfl
    | cons v rest ih =>
      unfold trySearchVariants
      rw [hall v (List.mem_cons_self v rest)]
      exact ih fun w hw => hall w (List.mem_cons_of_mem v hw)

/-- FTS stub mirroring the unit test's retry scenario: the quoted-phrase
variant for "datos ciber" raises a malformed-query failure, every other
variant succeeds with one row. -/
def testFts (v : String) : Except Unit (List Nat) :=
  if v = "\"datos ciber\"" then .error () else .ok [7]

/-- Witness for C4: the first variant raises, the rest succeed, and the
retry loop returns the later variant's rows. -/
theorem C4_search_variant_retry_witness :
    trySearchVariants testFts
      ["\"datos ciber\"", "datos AND ciber", "datos AND ciber*"] = [7] :=
  (C4_search_variant_retry Nat testFts "datos ciber").2.1 "\"datos ciber\""
    ["datos AND ciber", "datos AND ciber*"] [7] rfl rfl

/-! ### Response metadata envelope (`utils/metadata.ts`) -/

/-- The fixed response-metadata envelope. -/
structure ResponseMetadata where
  data_source : String
  jurisdiction : String
  disclaimer : String
  freshness : Option String
deriving DecidableEq, Repr

def chileDataSource : String :=
  "LeyChile (Biblioteca del Congreso Nacional de Chile) — https://www.bcn.cl/leychile"

def chileDisclaimer : String :=
  "This dataset is sourced from Chile\x27s official LeyChile service. " ++
  "Always verify citations against the official portal."

/-- `generateResponseMetadata` from `utils/metadata.ts`. The guarded
`db_metadata` read of `built_at` is modelled by its outcome: `.ok (some v)`
(row present), `.ok none` (no row), or `.error ()` (the read threw and the
`catch` ignored it). The function is total: generating the envelope never
raises. -/
def generateResponseMetadata (builtAtRead : Except Unit (Option String)) :
    ResponseMetadata :=
  let freshness :=
    match builtAtRead with
    | .ok row => row
    | .error _ => none
  ⟨chileDataSource, "CL", chileDisclaimer, freshness⟩

/-- C9: the envelope always carries the data-source attribution, the
jurisdiction code `CL` and the disclaimer; the freshness timestamp is
present exactly when the `built_at` row could be read, and is omitted (not
defaulted) when the read fails or the key is absent; envelope generation
is a total function (never raises). -/
theorem C9_metadata_envelope (r : Except Unit (Option String)) :
    (generateResponseMetadata r).data_source = chileDataSource ∧
    (generateResponseMetadata r).jurisdiction = "CL" ∧
    (generateResponseMetadata r).disclaimer = chileDisclaimer ∧
    (∀ v, r = .ok (some v) →
      (generateResponseMetadata r).freshness = some v) ∧
    (r = .ok none ∨ r = .error () →
      (generateResponseMetadata r).freshness = none) := by
  refine ⟨rfl, rfl, rfl, ?_, ?_⟩
  · intro v hv
    rw [hv]
    rfl
  · rintro (hv | hv) <;> rw [hv] <;> rfl

/-- Witness for C9: freshness propagates a read row and is omitted on a
failed read. -/
theorem C9_metadata_envelope_witness :
    (generateResponseMetadata
      (.ok (some "2026-02-21T20:00:00.000Z"))).freshness =
        some "2026-02-21T20:00:00.000Z" ∧
    (generateResponseMetadata (.error ())).freshness = none :=
  ⟨(C9_metadata_envelope (.ok (some "2026-02-21T20:00:00.000Z"))).2.2.2.1
      "2026-02-21T20:00:00.000Z" rfl,
   (C9_metadata_envelope (.error ())).2.2.2.2 (Or.inr rfl)⟩

/-! ### Compliance classification (spec-modelled,
`tools/validate-eu-compliance.ts`) -/

/-- The `results` payload of `validateEUCompliance`. -/
structure ComplianceResult where
  compliance_status : String
  warnings : List String
  recommendations : List String
deriving DecidableEq, Repr

def complianceRepealWarning : String :=
  "WARNING: This statute has been repealed."

def complianceNoRefsRecommendation : String :=
  "No EU cross-references recorded for this document."

def complianceUnknownRecommendation : String :=
  "Implementation status unknown for at least one EU reference."

/-- The reference rows the classifier aggregates: all `eu_references` rows
of the document, optionally filtered to one foreign instrument. -/
def complianceRefs (db : DB) (docId : String) (euFilter : Option String) :
    List EuReference :=
  db.euReferences.filter (fun r =>
    r.document_id == docId &&
    (match euFilter with
     | none => true
     | some e => r.eu_document_id == e))

/-- Modelled from the spec: `validateEUCompliance`
(src/tools/validate-eu-compliance.ts) is absent from the snapshot — only
its unit tests are present. Per spec §4.6: gate on the capability bit
(else `not_applicable` with a note); a document that does not resolve →
`not_applicable`; zero reference rows → `not_applicable` with a
recommendation; any row with `implementation_status = unknown` →
`unclear` with a recommendation; all rows `complete` → `compliant`;
otherwise `partial`; and a repealed document's result always carries a
repeal warning regardless of the verdict. -/
def validateEUCompliance (db : DB) (docIdInput : String)
    (euFilter : Option String) : ComplianceResult :=
  if !db.euAvailable then
    ⟨"not_applicable",
     ["EU cross-reference data not available in this database tier."], []⟩
  else
    match resolveDocumentId db docIdInput with
    | none => ⟨"not_applicable", [], []⟩
    | some docId =>
      match db.documents.find? (fun d => d.id == docId) with
      | none => ⟨"not_applicable", [], []⟩
      | some doc =>
        let refs := complianceRefs db docId euFilter
        let status :=
          if refs.isEmpty then "not_applicable"
          else if refs.any (fun r => r.implementation_status == "unknown")
            then "unclear"
          else if refs.all (fun r => r.implementation_status == "complete")
            then "compliant"
          else "partial"
        let recommendations :=
          if refs.isEmpty then [complianceNoRefsRecommendation]
          else if refs.any (fun r => r.implementation_status == "unknown")
            then [complianceUnknownRecommendation]
          else []
        let warnings :=
          if doc.status == "repealed" then [complianceRepealWarning] else []
        ⟨status, warnings, recommendations⟩

example :
    (validateEUCompliance testDb "doc-noeu" none).compliance_status =
      "not_applicable" := by decide
example :
    (validateEUCompliance testDb "doc-complete" none).compliance_status =
      "compliant" := by decide
example :
    (validateEUCompliance testDb "doc-data" none).compliance_status =
      "partial" := by decide
example :
    (validateEUCompliance testDb "doc-unknown" none).compliance_status =
      "unclear" := by decide
example :
    (validateEUCompliance testDb "missing" none).compliance_status =
      "not_applicable" := by decide
example :
    (validateEUCompliance testDb "doc-repealed"
      (some "directive:2022/2555")).warnings = [complianceRepealWarning] := by
  decide

/-- C5: compliance classification is deterministic and evaluated in order
— unresolved document or zero reference rows → `not_applicable`; any
`unknown` row → `unclear`; all rows `complete` → `compliant`; otherwise
`partial` — and, independently of the verdict, a repealed document's
result always carries the repeal warning. -/
theorem C5_compliance_classification :
    (∀ (db : DB) (input : String) (euFilter : Option String),
      db.euAvailable = true →
      resolveDocumentId db input = none →
      (validateEUCompliance db input euFilter).compliance_status =
        "not_applicable") ∧
    (∀ (db : DB) (input : String) (euFilter : Option String)
      (docId : String) (doc : Document),
      db.euAvailable = true →
      resolveDocumentId db input = some docId →
      db.documents.find? (fun d => d.id == docId) = some doc →
      (complianceRefs db docId euFilter = [] →
        (validateEUCompliance db input euFilter).compliance_status =
          "not_applicable") ∧
      (∀ r0, r0 ∈ complianceRefs db docId euFilter →
        r0.implementation_status = "unknown" →
        (validateEUCompliance db input euFilter).compliance_status =
          "unclear") ∧
      (complianceRefs db docId euFilter ≠ [] →
        (∀ r0 ∈ complianceRefs db docId euFilter,
          r0.implementation_status = "complete") →
        (validateEUCompliance db input euFilter).compliance_status =
          "compliant") ∧
      ((∀ r0 ∈ complianceRefs db docId euFilter,
          r0.implementation_status ≠ "unknown") →
        (∃ r0 ∈ complianceRefs db docId euFilter,
          r0.implementation_status ≠ "complete") →
        (validateEUCompliance db input euFilter).compliance_status =
          "partial") ∧
      (doc.status = "repealed" →
        complianceRepealWarning ∈
          (validateEUCompliance db input euFilter).warnings)) := by
  constructor
  · intro db input euFilter hav hres
    simp [validateEUCompliance, hav, hres]
  · intro db input euFilter docId doc hav hres hfind
    have hbody : validateEUCompliance db input euFilter =
        (let refs := complianceRefs db docId euFilter
         let status :=
          if refs.isEmpty then "not_applicable"
          else if refs.any (fun r => r.implementation_status == "unknown")
            then "unclear"
          else if refs.all (fun r => r.implementation_status == "complete")
            then "compliant"
          else "partial"
         let recommendations :=
          if refs.isEmpty then [complianceNoRefsRecommendation]
          else if refs.any (fun r => r.implementation_status == "unknown")
            then [complianceUnknownRecommendation]
          else []
         let warnings :=
          if doc.status == "repealed" then [complianceRepealWarning] else []
         (⟨status, warnings, recommendations⟩ : ComplianceResult)) := by
      simp [validateEUCompliance, hav, hres, hfind]
    refine ⟨?_, ?_, ?_, ?_, ?_⟩
    · intro hempty
      rw [hbody]
      simp [hempty]
    · intro r0 hmem hunknown
      have hne : (complianceRefs db docId euFilter).isEmpty = false := by
        cases hrefs : complianceRefs db docId euFilter
        · rw [hrefs] at hmem; cases hmem
        · rfl
      have hany : (complianceRefs db docId euFilter).any
          (fun r => r.implementation_status == "unknown") = true :=
        List.any_eq_true.mpr ⟨r0, hmem, by simp [hunknown]⟩
      rw [hbody]
      simp [hne, hany]
    · intro hne hall
      have hne2 : (complianceRefs db docId euFilter).isEmpty = false := by
        cases hrefs : complianceRefs db docId euFilter
        · exact absurd hrefs hne
        · rfl
      have hall2 : (complianceRefs db docId euFilter).all
          (fun r => r.implementation_status == "complete") = true :=
        List.all_eq_true.mpr fun r0 hmem => by simp [hall r0 hmem]
      have hany : (complianceRefs db docId euFilter).any
          (fun r => r.implementation_status == "unknown") = false := by
        rw [Bool.eq_false_iff]
        intro habs
        obtain ⟨r0, hmem, hr0⟩ := List.any_eq_true.mp habs
        rw [hall r0 hmem] at hr0
        cases hr0
      rw [hbody]
      simp [hne2, hall2, hany]
    · intro hnounknown hnotall
      obtain ⟨r0, hmem, hr0⟩ := hnotall
      have hne2 : (complianceRefs db docId euFilter).isEmpty = false := by
        cases hrefs : complianceRefs db docId euFilter
        · rw [hrefs] at hmem; cases hmem
        · rfl
      have hany : (complianceRefs db docId euFilter).any
          (fun r => r.implementation_status == "unknown") = false := by
        rw [Bool.eq_false_iff]
        intro habs
        obtain ⟨r1, hmem1, hr1⟩ := List.any_eq_true.mp habs
        exact hnounknown r1 hmem1 (by simpa using hr1)
      have hall2 : (complianceRefs db docId euFilter).all
          (fun r => r.implementation_status == "complete") = false := by
        rw [Bool.eq_false_iff]
        intro habs
        exact hr0 (by simpa using List.all_eq_true.mp habs r0 hmem)
      rw [hbody]
      simp [hne2, hany, hall2]
    · intro hrep
      rw [hbody]
      simp [hrep]

/-- Witness for C5: the test store's `doc-unknown` (one `unknown` row)
classifies as `unclear`. -/
theorem C5_compliance_classification_witness :
    (validateEUCompliance testDb "doc-unknown" none).compliance_status =
      "unclear" :=
  ((C5_compliance_classification.2 testDb "doc-unknown" none "doc-unknown"
      ⟨"doc-unknown", "Ley Incierta", some "Unknown Law", some "LU",
        "in_force", some "https://example/doc-unknown"⟩
      rfl (by decide) (by decide)).2.1
    ⟨"doc-unknown", "regulation:2016/679", "unknown"⟩ (by decide) rfl)

/-! ### LeyChile ingestion parser (`scripts/lib/parser.ts`)

Global regex replacement (`String.replace` with `/g`) is modelled by a
single left-to-right scan: at each position the pattern is tried; on a
match the replacement is emitted and scanning resumes after the match,
otherwise the character is kept. The scan is written with a step-count
fuel (initialised to the input length, an upper bound on the number of
scan steps since every step consumes at least one character). -/

/-- One pattern: given the input at the current position, return
(replacement, remainder after the match), or `none`. Every matcher below
consumes at least one character on success. -/
def globalReplace (matchAt : List Char → Option (List Char × List Char)) :
    Nat → List Char → List Char
  | 0, cs => cs
  | _ + 1, [] => []
  | fuel + 1, c :: rest =>
    match matchAt (c :: rest) with
    | some (rep, after) => rep ++ globalReplace matchAt fuel after
    | none => c :: globalReplace matchAt fuel rest

/-- Run a global replace over a whole string. -/
def runReplace (matchAt : List Char → Option (List Char × List Char))
    (cs : List Char) : List Char :=
  globalReplace matchAt cs.length cs

/-- Matcher for `<br\s*\/?>` (case-insensitive), replaced by a newline. -/
def matchBr (cs : List Char) : Option (List Char × List Char) :=
  match matchKeywordCI "<br".toList cs with
  | none => none
  | some r0 =>
    match r0.dropWhile isJsWs with
    | '/' :: '>' :: rest => some (['\n'], rest)
    | '>' :: rest => some (['\n'], rest)
    | _ => none

/-- Match one closing-tag name alternative followed by `\s*>`. -/
def matchCloseAlt (tag : String) (r : List Char) :
    Option (List Char × List Char) :=
  match matchKeywordCI tag.toList r with
  | none => none
  | some r2 =>
    match r2.dropWhile isJsWs with
    | '>' :: rest => some (['\n'], rest)
    | _ => none

/-- Matcher for `<\/\s*(div|p|li|tr|h[1-6])\s*>` (case-insensitive),
replaced by a newline; the alternatives are tried in the pattern's
order. -/
def matchCloseTag (cs : List Char) : Option (List Char × List Char) :=
  match cs with
  | '<' :: '/' :: r0 =>
    let r1 := r0.dropWhile isJsWs
    (matchCloseAlt "div" r1).orElse fun _ =>
    (matchCloseAlt "p" r1).orElse fun _ =>
    (matchCloseAlt "li" r1).orElse fun _ =>
    (matchCloseAlt "tr" r1).orElse fun _ =>
    (match r1 with
     | c :: d :: r2 =>
       if charCI 'h' c && '1' ≤ d && d ≤ '6' then
         match r2.dropWhile isJsWs with
         | '>' :: rest => some (['\n'], rest)
         | _ => none
       else none
     | _ => none)
  | _ => none

/-- Matcher for `<[^>]+>` (any remaining tag), removed. -/
def matchAnyTag (cs : List Char) : Option (List Char × List Char) :=
  match cs with
  | '<' :: r0 =>
    let body := r0.takeWhile (fun c => !(c == '>'))
    if body.isEmpty then none
    else
      match r0.drop body.length with
      | '>' :: rest => some ([], rest)
      | _ => none
  | _ => none

def isHexDigit (c : Char) : Bool :=
  c.isDigit || ('a' ≤ c && c ≤ 'f') || ('A' ≤ c && c ≤ 'F')

def hexDigitVal (c : Char) : Nat :=
  if c.isDigit then c.toNat - 48
  else if 'a' ≤ c && c ≤ 'f' then c.toNat - 87
  else c.toNat - 55

def hexToNat (cs : List Char) : Nat :=
  cs.foldl (fun a c => a * 16 + hexDigitVal c) 0

def decToNat (cs : List Char) : Nat :=
  cs.foldl (fun a c => a * 10 + (c.toNat - 48)) 0

/-- Is `code` a Unicode scalar value `String.fromCodePoint` yields as one
Lean `Char`? (JS additionally produces lone surrogates for d800–dfff and
raises `RangeError` above 0x10ffff; neither occurs in corpus entities, and
the model keeps the source text there.) -/
def isScalar (code : Nat) : Bool :=
  code < 0xd800 || (0xe000 ≤ code && code < 0x110000)

/-- Matcher for `&#x([0-9a-fA-F]+);` (hexadecimal character entity). -/
def matchHexEntity (cs : List Char) : Option (List Char × List Char) :=
  match cs with
  | '&' :: '#' :: 'x' :: r0 =>
    let ds := r0.takeWhile isHexDigit
    if ds.isEmpty then none
    else
      match r0.drop ds.length with
      | ';' :: rest =>
        let code := hexToNat ds
        if isScalar code then some ([Char.ofNat code], rest) else none
      | _ => none
  | _ => none

/-- Matcher for `&#(\d+);` (decimal character entity). -/
def matchDecEntity (cs : List Char) : Option (List Char × List Char) :=
  match cs with
  | '&' :: '#' :: r0 =>
    let ds := r0.takeWhile Char.isDigit
    if ds.isEmpty then none
    else
      match r0.drop ds.length with
      | ';' :: rest =>
        let code := decToNat ds
        if isScalar code then some ([Char.ofNat code], rest) else none
      | _ => none
  | _ => none

/-- The `NAMED_HTML_ENTITIES` table. -/
def namedEntity (name : List Char) : Option Char :=
  if name == "amp".toList then some '&'
  else if name == "lt".toList then some '<'
  else if name == "gt".toList then some '>'
  else if name == "quot".toList then some '"'
  else if name == "apos".toList then some (Char.ofNat 0x27)
  else if name == "nbsp".toList then some (Char.ofNat 0xa0)
  else none

def isAsciiLetter (c : Char) : Bool :=
  ('a' ≤ c && c ≤ 'z') || ('A' ≤ c && c ≤ 'Z')

/-- Matcher for `&([a-zA-Z]+);` with the named-entity table (an unknown
name is replaced by itself, i.e. kept). -/
def matchNamedEntity (cs : List Char) : Option (List Char × List Char) :=
  match cs with
  | '&' :: r0 =>
    let nm := r0.takeWhile isAsciiLetter
    if nm.isEmpty then none
    else
      match r0.drop nm.length with
      | ';' :: rest =>
        match namedEntity nm with
        | some c => some ([c], rest)
        | none => some ('&' :: nm ++ [';'], rest)
      | _ => none
  | _ => none

/-- `decodeHtmlEntities`: the three chained global replaces. -/
def decodeHtmlEntities (cs : List Char) : List Char :=
  runReplace matchNamedEntity
    (runReplace matchDecEntity (runReplace matchHexEntity cs))

/-- A word character for the `\b` boundary assertion: `[A-Za-z0-9_]`. -/
def isWordChar (c : Char) : Bool := c.isAlphanum || c == '_'

/-- Case-insensitive `startsWith`. -/
def seqStartsWithCI : List Char → List Char → Bool
  | [], _ => true
  | _ :: _, [] => false
  | a :: as, b :: bs => charCI a b && seqStartsWithCI as bs

/-- Does the class-attribute text contain `word` bounded by `\b` on both
sides (case-insensitively)? `prev` is the character before the current
position. -/
def hasClassWord (word : List Char) : Option Char → List Char → Bool
  | _, [] => false
  | prev, c :: rest =>
    ((match prev with
      | none => true
      | some p => !isWordChar p) &&
     seqStartsWithCI word (c :: rest) &&
     (match (c :: rest).drop word.length with
      | [] => true
      | d :: _ => !isWordChar d)) ||
    hasClassWord word (some c) rest

/-- Find `</tag>` (case-insensitive) — the lazy `.*?` under `/s` — and
return the remainder after it. -/
def findCloseSeq (tag : List Char) : List Char → Option (List Char)
  | [] => none
  | c :: rest =>
    match matchKeywordCI ('<' :: '/' :: tag ++ ['>']) (c :: rest) with
    | some r => some r
    | none => findCloseSeq tag rest

/-- Try the split of the opening tag's `[^>]*` at offset `k`: the rest
must read `class="B"` with `\b word \b` in `B`, then `[^>]*>`, then
(lazily) the matching close tag. Returns the remainder after the close
tag. -/
def noteFullAt (tag word r0 : List Char) (k : Nat) : Option (List Char) :=
  if (r0.take k).all (fun c => !(c == '>')) then
    match matchKeywordCI "class=\"".toList (r0.drop k) with
    | none => none
    | some rB =>
      let b := rB.takeWhile (fun c => !(c == '"'))
      match rB.drop b.length with
      | '"' :: rC =>
        if hasClassWord word none b then
          match rC.drop (rC.takeWhile (fun c => !(c == '>'))).length with
          | '>' :: rest => findCloseSeq tag rest
          | _ => none
        else none
      | _ => none
  else none

/-- Backtracking search over the greedy `[^>]*` split, longest first. -/
def noteClassSearch (tag word r0 : List Char) : Nat → Option (List Char)
  | 0 => noteFullAt tag word r0 0
  | k + 1 =>
    match noteFullAt tag word r0 (k + 1) with
    | some rest => some rest
    | none => noteClassSearch tag word r0 k

/-- Matcher for `<tag[^>]*class="[^"]*\bword\b[^"]*"[^>]*>.*?<\/tag>`
(flags `gis`), removed entirely. -/
def matchNoteTag (tag word : List Char) (cs : List Char) :
    Option (List Char × List Char) :=
  match matchKeywordCI ('<' :: tag) cs with
  | none => none
  | some r0 =>
    match noteClassSearch tag word r0
        (r0.takeWhile (fun c => !(c == '>'))).length with
    | none => none
    | some rest => some ([], rest)

/-- `stripNoteFragments`: remove `span` fragments with class word `n`,
then `div` fragments with class word `n`, then `div` fragments with class
word `rnp`. -/
def stripNoteFragments (cs : List Char) : List Char :=
  runReplace (matchNoteTag "div".toList "rnp".toList)
    (runReplace (matchNoteTag "div".toList "n".toList)
      (runReplace (matchNoteTag "span".toList "n".toList) cs))

/-- Collapse every whitespace run to a single space
(`replace(/\s+/g, ' ')`); the flag tracks whether the previous character
was inside a run. -/
def collapseWsAux : List Char → Bool → List Char
  | [], _ => []
  | c :: rest, inWs =>
    if isJsWs c then
      if inWs then collapseWsAux rest true
      else ' ' :: collapseWsAux rest true
    else c :: collapseWsAux rest false

/-- Split on newline characters (JS `split('\n')`, which keeps empty
pieces). -/
def splitOnNl : List Char → List Char → List (List Char)
  | [], acc => [acc.reverse]
  | c :: rest, acc =>
    if c == '\n' then acc.reverse :: splitOnNl rest []
    else splitOnNl rest (c :: acc)

/-- `htmlToPlainText`: strip note fragments, turn `<br>` and closing
block tags into newlines, strip the remaining tags, decode entities,
normalize NBSP and CR, then clean each line and drop empty lines. -/
def htmlToPlainText (html : String) : String :=
  let s0 := stripNoteFragments html.toList
  let s1 := runReplace matchBr s0
  let s2 := runReplace matchCloseTag s1
  let s3 := runReplace matchAnyTag s2
  let s4 := decodeHtmlEntities s3
  let s5 := s4.map (fun c => if c == Char.ofNat 0xa0 then ' ' else c)
  let s6 := s5.filter (fun c => !(c == '\r'))
  let lines := (splitOnNl s6 []).map
    (fun line => jsTrim (collapseWsAux line false))
  (List.intercalate ['\n'] (lines.filter (fun l => !l.isEmpty))).asString

example : htmlToPlainText "x" = "x" := by decide
example :
    htmlToPlainText
      "<div>Art&#xed;culo 1&nbsp;<br/>texto <span class=\"a n\">nota</span></div>" =
      "Artículo 1\ntexto" := by decide

/-- Canonical NFD decomposition restricted to the Latin-1 letters of this
corpus (identity on ASCII and on anything without a Latin-1
decomposition); the combining marks are U+0300 (grave), U+0301 (acute),
U+0303 (tilde) and U+0308 (diaeresis). -/
def nfdChar (c : Char) : List Char :=
  let acute := Char.ofNat 0x301
  let grave := Char.ofNat 0x300
  let tilde := Char.ofNat 0x303
  let diaer := Char.ofNat 0x308
  if c == 'á' then ['a', acute] else if c == 'Á' then ['A', acute]
  else if c == 'é' then ['e', acute] else if c == 'É' then ['E', acute]
  else if c == 'í' then ['i', acute] else if c == 'Í' then ['I', acute]
  else if c == 'ó' then ['o', acute] else if c == 'Ó' then ['O', acute]
  else if c == 'ú' then ['u', acute] else if c == 'Ú' then ['U', acute]
  else if c == 'à' then ['a', grave] else if c == 'À' then ['A', grave]
  else if c == 'è' then ['e', grave] else if c == 'È' then ['E', grave]
  else if c == 'ì' then ['i', grave] else if c == 'Ì' then ['I', grave]
  else if c == 'ò' then ['o', grave] else if c == 'Ò' then ['O', grave]
  else if c == 'ù' then ['u', grave] else if c == 'Ù' then ['U', grave]
  else if c == 'ñ' then ['n', tilde] else if c == 'Ñ' then ['N', tilde]
  else if c == 'ü' then ['u', diaer] else if c == 'Ü' then ['U', diaer]
  else [c]

/-- Replace every run of non-`[a-z0-9]` characters by one hyphen
(`replace(/[^a-z0-9]+/g, '-')`). -/
def dashRuns : List Char → Bool → List Char
  | [], _ => []
  | c :: rest, inRun =>
    if ('a' ≤ c && c ≤ 'z') || c.isDigit then c :: dashRuns rest false
    else if inRun then dashRuns rest true
    else '-' :: dashRuns rest true

/-- Strip leading and trailing hyphens (`replace(/^-+|-+$/g, '')`). -/
def trimDashes (cs : List Char) : List Char :=
  ((cs.dropWhile (fun c => c == '-')).reverse.dropWhile
    (fun c => c == '-')).reverse

/-- `slugifySection`: NFD-normalize, strip combining marks U+0300–U+036F,
lowercase, hyphenate non-alphanumeric runs, trim hyphens. -/
def slugifySection (sec : String) : String :=
  let nfd := (sec.toList.map nfdChar).flatten
  let stripped := nfd.filter
    (fun c => !(0x300 ≤ c.toNat && c.toNat ≤ 0x36f))
  let lowered := stripped.map jsToLower
  (trimDashes (dashRuns lowered false)).asString

example : slugifySection "1 bis" = "1-bis" := by decide
example : slugifySection "único" = "unico" := by decide
example : slugifySection "1º" = "1" := by decide

/-- Is the ten-character list shaped `\d{4}-\d{2}-\d{2}`? -/
def dateShapeOk : List Char → Bool
  | [a, b, c, d, '-', e, f, '-', g, h] =>
    a.isDigit && b.isDigit && c.isDigit && d.isDigit &&
    e.isDigit && f.isDigit && g.isDigit && h.isDigit
  | _ => false

/-- `normalizeDate`: a falsy (absent or empty) value yields `none`; a
trimmed `YYYY-MM-DD` is returned verbatim; anything else yields `none`. -/
def normalizeDate (value : Option String) : Option String :=
  match value with
  | none => none
  | some v =>
    if v.isEmpty then none
    else
      let t := jsTrim v.toList
      if dateShapeOk t then some t.asString else none

/-- `vigencia` of `LeyChileMetadata`. -/
structure Vigencia where
  inicio_vigencia : Option String
  fin_vigencia : Option String
deriving DecidableEq, Repr

/-- The metadata block of a LeyChile response (`metadatos`). The optional
boolean `derogado` is modelled by its truthiness. -/
structure LeyChileMetadata where
  id_norma : Option String
  titulo_norma : Option String
  fecha_promulgacion : Option String
  fecha_publicacion : Option String
  tipo_version_s : Option String
  derogado : Bool
  vigencia : Option Vigencia
deriving DecidableEq, Repr

/-- `parseStatus` (with the current date passed explicitly in place of
`new Date().toISOString().slice(0, 10)`). -/
def parseStatus (meta : Option LeyChileMetadata) (today : String) : String :=
  match meta with
  | none => "in_force"
  | some m =>
    if m.derogado then "repealed"
    else
      let start := normalizeDate (m.vigencia.bind (·.inicio_vigencia))
      let notYet := match start with
        | some st => decide (today < st)
        | none => false
      if notYet then "not_yet_in_force"
      else
        let versionLabel := lowerChars (m.tipo_version_s.getD "").toList
        if seqContains versionLabel "ultima".toList ||
           seqContains versionLabel "última".toList ||
           seqContains versionLabel "intermedio".toList then "amended"
        else "in_force"

/-- Case-insensitive `/transitor/i.test`. -/
def hasTransitor (cs : List Char) : Bool :=
  seqContains (lowerChars cs) "transitor".toList

/-- `/[.:-]+$/`: strip the trailing run of `.`, `:`, `-`. -/
def stripTrailingPunct (cs : List Char) : List Char :=
  (cs.reverse.dropWhile (fun c => c == '.' || c == ':' || c == '-')).reverse

/-- `extractSection`: match `^Artículo\s+(.+)$` on the whitespace-
normalized article name, clean the captured section label, and tag
transitory-chapter sections. -/
def extractSection (articleName : String) (chapter : Option String) :
    Option String :=
  let normalized := jsTrim (collapseWsAux articleName.toList false)
  match matchKeywordCI "artículo".toList normalized with
  | none => none
  | some r0 =>
    match matchWsThenDotPlus r0 with
    | none => none
    | some sec0 =>
      let sec1 := sec0.filter (fun c => !(c == 'º' || c == '°'))
      let sec2 := stripTrailingPunct sec1
      let sec3 := jsTrim (collapseWsAux sec2 false)
      if sec3.isEmpty then none
      else
        match chapter with
        | some ch =>
          if hasTransitor ch.toList && !hasTransitor sec3 then
            some (sec3.asString ++ " transitorio")
          else some sec3.asString
        | none => some sec3.asString

example : extractSection "Artículo 1º.-" none = some "1" := by decide
example : extractSection "Artículo  5  bis:" none = some "5 bis" := by decide
example :
    extractSection "Artículo 2" (some "Disposiciones transitorias") =
      some "2 transitorio" := by decide
example : extractSection "TÍTULO I" none = none := by decide

/-- A node of the LeyChile JSON (`{i?, n?, t?, h?}`); an absent `h` array
behaves identically to an empty one. -/
inductive LeyChileNode where
  | mk (i : Option Int) (n : Option String) (t : Option String)
      (h : List LeyChileNode)
deriving Repr

/-- An article found in the structure/HTML walk. -/
structure StructuredArticle where
  id : Int
  name : String
  chapter : Option String
deriving DecidableEq, Repr

/-- JS `Map.set` on an association list (update in place or append). -/
def mapSet (m : List (Int × String)) (k : Int) (v : String) :
    List (Int × String) :=
  if m.any (fun p => p.1 == k) then
    m.map (fun p => if p.1 == k then (k, v) else p)
  else m ++ [(k, v)]

/-- JS `Map.get`. -/
def mapGet (m : List (Int × String)) (k : Int) : Option String :=
  (m.find? (fun p => p.1 == k)).map (·.2)

/-- Record `t` under `i` when both are present (the guarded `out.set`). -/
def setHtmlEntry (out : List (Int × String)) (i : Option Int)
    (t : Option String) : List (Int × String) :=
  match i, t with
  | some iv, some tv => mapSet out iv tv
  | _, _ => out

/-- `collectHtmlById`: walk the node tree in document order, recording
`t` under `i` when both are present (later entries overwrite). -/
def collectHtmlById : List LeyChileNode → List (Int × String) →
    List (Int × String)
  | [], out => out
  | .mk i _ t h :: rest, out =>
    collectHtmlById rest (collectHtmlById h (setHtmlEntry out i t))

/-- `/^Artículo\s+/i.test`. -/
def isArticleName (name : List Char) : Bool :=
  match matchKeywordCI "artículo".toList name with
  | none => false
  | some r => match matchWsPlus r with | some _ => true | none => false

/-- The pushed article of one node (`isArticle && typeof i === 'number'`). -/
def articleEntry (i : Option Int) (isArt : Bool) (name : String)
    (chapter : Option String) : List StructuredArticle :=
  match i with
  | some iv => if isArt then [⟨iv, name, chapter⟩] else []
  | none => []

/-- `collectArticlesFromStructure`: walk the `estructura` tree with a
chapter stack; a node whose normalized name starts with `Artículo` and
that has a numeric id is an article (tagged with the top of the stack),
any other named node is pushed onto the stack for its children. -/
def collectArticlesFromStructure : List LeyChileNode → List String →
    List StructuredArticle
  | [], _ => []
  | .mk i n _ h :: rest, chapterStack =>
    let name := jsTrim (collapseWsAux (n.getD "").toList false)
    let isArt := isArticleName name
    articleEntry i isArt name.asString chapterStack.getLast? ++
      collectArticlesFromStructure h
        (if isArt || name.isEmpty then chapterStack
         else chapterStack ++ [name.asString]) ++
      collectArticlesFromStructure rest chapterStack

/-- First plain-text line of a node's HTML (an absent `t` behaves as the
empty string). -/
def nodeFirstLine (t : Option String) : List Char :=
  (splitOnNl (match t with
    | some tv => htmlToPlainText tv
    | none => "").toList []).headD []

/-- `collectArticlesFromHtml`: fallback walk over the `html` tree using
each block's first plain-text line. -/
def collectArticlesFromHtml : List LeyChileNode → Option String →
    List StructuredArticle
  | [], _ => []
  | .mk i _ t h :: rest, chapter =>
    let firstLine := nodeFirstLine t
    let isArt := isArticleName firstLine
    articleEntry i isArt firstLine.asString chapter ++
      collectArticlesFromHtml h
        (if !isArt && firstLine.length > 0 && firstLine.length < 140 then
          some firstLine.asString
         else chapter) ++
      collectArticlesFromHtml rest chapter

/-- A provision produced by the ingestion parser. -/
structure ParsedProvision where
  provision_ref : String
  chapter : Option String
  «section» : String
  title : String
  content : String
deriving DecidableEq, Repr

/-- An entry of the target-law index. -/
structure ActIndexEntry where
  id : String
  lawNumber : Nat
  seedFile : String
  titleEn : Option String
  shortName : Option String
deriving DecidableEq, Repr

/-- The LeyChile service response shape. -/
structure LeyChileResponse where
  html : Option (List LeyChileNode)
  estructura : Option (List LeyChileNode)
  metadatos : Option LeyChileMetadata
deriving Repr

/-- `baseRefCounts.get(baseRef) ?? 0`. -/
def countsGet (m : List (String × Nat)) (k : String) : Nat :=
  ((m.find? (fun p => p.1 == k)).map (·.2)).getD 0

/-- `baseRefCounts.set(baseRef, seen + 1)`: replace in place (JS `Map`
keeps the original insertion position) or append. -/
def countsSet : List (String × Nat) → String → Nat → List (String × Nat)
  | [], k, v => [(k, v)]
  | p :: m, k, v => if p.1 == k then (k, v) :: m else p :: countsSet m k v

/-- The provision-building loop of `parseLeyChileResponse`: skip articles
with no (or falsy-empty) HTML, empty plain text, or no extractable
section; slugify the section into a base ref; the first occurrence keeps
the bare base ref, the (k+1)-st gets the suffix `-(k+1)`. -/
def buildProvisions (htmlById : List (Int × String)) :
    List StructuredArticle → List (String × Nat) → List ParsedProvision
  | [], _ => []
  | article :: rest, counts =>
    match mapGet htmlById article.id with
    | none => buildProvisions htmlById rest counts
    | some html =>
      if html.isEmpty then buildProvisions htmlById rest counts
      else
        let content := htmlToPlainText html
        if content.isEmpty then buildProvisions htmlById rest counts
        else
          match extractSection article.name article.chapter with
          | none => buildProvisions htmlById rest counts
          | some sec =>
            let baseRef := "art" ++ slugifySection sec
            let seen := countsGet counts baseRef
            let provisionRef :=
              if seen = 0 then baseRef
              else baseRef ++ "-" ++ Nat.repr (seen + 1)
            ⟨provisionRef, article.chapter, sec, article.name, content⟩ ::
              buildProvisions htmlById rest (countsSet counts baseRef (seen + 1))

/-- A parsed act. -/
structure ParsedAct where
  id : String
  type : String
  title : String
  title_en : Option String
  short_name : Option String
  status : String
  issued_date : Option String
  in_force_date : Option String
  url : String
  provisions : List ParsedProvision
deriving DecidableEq, Repr

/-- `parseLeyChileResponse` (the definitions output, always `[]` in the
source, is omitted; `today` stands for
`new Date().toISOString().slice(0, 10)`). -/
def parseLeyChileResponse (response : LeyChileResponse)
    (act : ActIndexEntry) (today : String) : ParsedAct :=
  let htmlById := collectHtmlById (response.html.getD []) []
  let structuredA := collectArticlesFromStructure
    (response.estructura.getD []) []
  let articles :=
    if structuredA.isEmpty then
      collectArticlesFromHtml (response.html.getD []) none
    else structuredA
  let provisions := buildProvisions htmlById articles []
  let meta := response.metadatos
  let idNorma := (meta.bind (·.id_norma)).map
    (fun s => (jsTrim s.toList).asString)
  { id := act.id
    type := "statute"
    title := (jsTrim ((meta.bind (·.titulo_norma)).getD
      ("Ley " ++ Nat.repr act.lawNumber)).toList).asString
    title_en := act.titleEn
    short_name := act.shortName
    status := parseStatus meta today
    issued_date := normalizeDate (meta.bind (·.fecha_promulgacion))
    in_force_date := normalizeDate
      ((meta.bind (fun m => m.vigencia.bind (·.inicio_vigencia))).orElse
        (fun _ => meta.bind (·.fecha_publicacion)))
    url := match idNorma with
      | some v =>
        if v.isEmpty then
          "https://www.bcn.cl/leychile/navegar?idLey=" ++
            Nat.repr act.lawNumber
        else "https://www.bcn.cl/leychile/navegar?idNorma=" ++ v
      | none =>
        "https://www.bcn.cl/leychile/navegar?idLey=" ++ Nat.repr act.lawNumber
    provisions := provisions }

/-- The concrete inputs of the C8 counterexample: three articles named
`Artículo 1-2`, `Artículo 1`, `Artículo 1` with non-empty content. -/
def c8Act : ActIndexEntry := ⟨"cl-test", 99999, "seed.json", none, none⟩

def c8Response : LeyChileResponse :=
  ⟨some [.mk (some 1) none (some "uno") [],
         .mk (some 2) none (some "dos") [],
         .mk (some 3) none (some "tres") []],
   some [.mk (some 1) (some "Artículo 1-2") none [],
         .mk (some 2) (some "Artículo 1") none [],
         .mk (some 3) (some "Artículo 1") none []],
   none⟩

/-- Evaluation of the html-by-id map of the counterexample response. -/
theorem c8_htmlById_eval :
    collectHtmlById [LeyChileNode.mk (some 1) none (some "uno") [],
      .mk (some 2) none (some "dos") [],
      .mk (some 3) none (some "tres") []] [] =
    [(1, "uno"), (2, "dos"), (3, "tres")] := by
  simp only [collectHtmlById]
  decide

/-- Evaluation of the structure walk of the counterexample response. -/
theorem c8_articles_eval :
    collectArticlesFromStructure
      [LeyChileNode.mk (some 1) (some "Artículo 1-2") none [],
       .mk (some 2) (some "Artículo 1") none [],
       .mk (some 3) (some "Artículo 1") none []] [] =
    [⟨1, "Artículo 1-2", none⟩, ⟨2, "Artículo 1", none⟩,
     ⟨3, "Artículo 1", none⟩] := by
  simp only [collectArticlesFromStructure]
  decide

/-- C8 counterexample: the parsed act for `c8Response` has provision_refs
`art1-2`, `art1`, `art1-2` — the base slug of `Artículo 1-2` collides with
the suffixed second occurrence of `Artículo 1`'s base slug, so the refs
are not pairwise distinct. -/
theorem C8_counterexample :
    ((parseLeyChileResponse c8Response c8Act "2026-10-11").provisions.map
      (·.provision_ref)) = ["art1-2", "art1", "art1-2"] ∧
    ¬ ((parseLeyChileResponse c8Response c8Act "2026-10-11").provisions.map
      (·.provision_ref)).Nodup := by
  have hp : (parseLeyChileResponse c8Response c8Act "2026-10-11").provisions =
      buildProvisions [(1, "uno"), (2, "dos"), (3, "tres")]
        [⟨1, "Artículo 1-2", none⟩, ⟨2, "Artículo 1", none⟩,
         ⟨3, "Artículo 1", none⟩] [] := by
    simp only [parseLeyChileResponse, c8Response, c8Act, Option.getD,
      c8_htmlById_eval, c8_articles_eval]
    rfl
  rw [hp]
  constructor
  · decide
  · decide

/-! ### Decimal representation: `toString (seen + 1)` is `Nat.repr`, and
distinct numbers have distinct decimal strings. -/

/-- `Nat.toDigitsCore` only uses its accumulator as a suffix. -/
theorem toDigitsCore_append (fuel : Nat) : ∀ (n : Nat) (ds : List Char),
    Nat.toDigitsCore 10 fuel n ds = Nat.toDigitsCore 10 fuel n [] ++ ds := by
  induction fuel with
  | zero => intro n ds; simp [Nat.toDigitsCore]
  | succ fuel ih =>
    intro n ds
    simp only [Nat.toDigitsCore]
    by_cases h : n / 10 = 0
    · simp [h]
    · simp only [h, if_false]
      rw [ih (n / 10) (Nat.digitChar (n % 10) :: ds),
          ih (n / 10) [Nat.digitChar (n % 10)]]
      simp

/-- The decimal digit characters decode back to their values. -/
theorem digitChar_decode (k : Nat) (h : k < 10) :
    (Nat.digitChar k).toNat - 48 = k := by
  interval_cases k <;> decide

/-- Decimal round trip for `Nat.toDigitsCore` with sufficient fuel. -/
theorem decToNat_toDigitsCore (fuel : Nat) : ∀ n : Nat, n < 10 ^ fuel →
    decToNat (Nat.toDigitsCore 10 fuel n []) = n := by
  induction fuel with
  | zero =>
    intro n hn
    interval_cases n
    decide
  | succ fuel ih =>
    intro n hn
    simp only [Nat.toDigitsCore]
    by_cases h : n / 10 = 0
    · have hlt : n < 10 := (Nat.div_eq_zero_iff (by omega)).mp h
      simp only [h, if_true]
      simp [decToNat, Nat.mod_eq_of_lt hlt, digitChar_decode n hlt]
    · simp only [h, if_false]
      rw [toDigitsCore_append fuel (n / 10) [Nat.digitChar (n % 10)]]
      have hdiv : n / 10 < 10 ^ fuel := by
        rw [Nat.div_lt_iff_lt_mul (by omega : 0 < 10)]
        calc n < 10 ^ (fuel + 1) := hn
          _ = 10 ^ fuel * 10 := by rw [Nat.pow_succ]
      have hrec := ih (n / 10) hdiv
      simp only [decToNat, List.foldl_append] at hrec ⊢
      rw [hrec]
      have := digitChar_decode (n % 10) (Nat.mod_lt n (by omega))
      simp only [List.foldl]
      omega

/-- `Nat.repr` never produces the empty string. -/
theorem toDigits_ne_nil (n : Nat) : Nat.toDigits 10 n ≠ [] := by
  simp only [Nat.toDigits, Nat.toDigitsCore]
  by_cases h : n / 10 = 0
  · simp [h]
  · simp only [h, if_false]
    rw [toDigitsCore_append n (n / 10) [Nat.digitChar (n % 10)]]
    simp

/-- Decimal printing is injective. -/
theorem natRepr_injective (m n : Nat) (h : Nat.repr m = Nat.repr n) :
    m = n := by
  have hlist : Nat.toDigits 10 m = Nat.toDigits 10 n := by
    have hd := congrArg String.data h
    simpa [Nat.repr, List.asString] using hd
  have hm : m < 10 ^ (m + 1) :=
    lt_of_lt_of_le (Nat.lt_pow_self (by omega) m)
      (Nat.pow_le_pow_right (by omega) (Nat.le_succ m))
  have hn : n < 10 ^ (n + 1) :=
    lt_of_lt_of_le (Nat.lt_pow_self (by omega) n)
      (Nat.pow_le_pow_right (by omega) (Nat.le_succ n))
  have := congrArg decToNat hlist
  rw [Nat.toDigits, Nat.toDigits] at this
  rw [decToNat_toDigitsCore (m + 1) m hm,
      decToNat_toDigitsCore (n + 1) n hn] at this
  exact this

/-- The ref assigned to the `(k+1)`-st occurrence of a base slug: the
bare slug for the first occurrence, `-(k+1)` suffixes afterwards. -/
def mkRef (b : String) (k : Nat) : String :=
  if k = 0 then b else b ++ "-" ++ Nat.repr (k + 1)

/-- For a fixed base, the occurrence refs are pairwise distinct. -/
theorem mkRef_injective (b : String) : Function.Injective (mkRef b) := by
  intro j k h
  unfold mkRef at h
  rcases Nat.eq_zero_or_pos j with hj | hj <;>
    rcases Nat.eq_zero_or_pos k with hk | hk
  · omega
  · exfalso
    rw [if_pos hj, if_neg (by omega)] at h
    have hlen := congrArg String.length h
    simp only [String.length_append] at hlen
    have : (Nat.repr (k + 1)).length ≠ 0 := by
      simp only [Nat.repr, List.asString]
      intro habs
      exact toDigits_ne_nil (k + 1) (List.length_eq_zero.mp habs)
    simp only [String.length] at hlen this
    omega
  · exfalso
    rw [if_neg (by omega), if_pos hk] at h
    have hlen := congrArg String.length h
    simp only [String.length_append] at hlen
    have : (Nat.repr (j + 1)).length ≠ 0 := by
      simp only [Nat.repr, List.asString]
      intro habs
      exact toDigits_ne_nil (j + 1) (List.length_eq_zero.mp habs)
    simp only [String.length] at hlen this
    omega
  · rw [if_neg (by omega), if_neg (by omega)] at h
    have hd := congrArg String.data h
    simp only [String.data_append] at hd
    have hd2 := List.append_cancel_left hd
    have : Nat.repr (j + 1) = Nat.repr (k + 1) := by
      simp only [Nat.repr, List.asString] at hd2 ⊢
      exact congrArg List.asString hd2
    have := natRepr_injective (j + 1) (k + 1) this
    omega

/-- The base slug a produced provision was counted under (recomputable
from its stored section label). -/
def baseOf (p : ParsedProvision) : String :=
  "art" ++ slugifySection p.«section»

theorem countsGet_set_self (m : List (String × Nat)) (k : String) (v : Nat) :
    countsGet (countsSet m k v) k = v := by
  induction m with
  | nil => simp [countsSet, countsGet, List.find?]
  | cons p m ih =>
    by_cases h : p.1 == k
    · simp [countsSet, h, countsGet, List.find?]
    · simp only [countsSet, h, if_false]
      simp only [countsGet, List.find?, h]
      exact ih

theorem countsGet_set_ne (m : List (String × Nat)) (k k2 : String) (v : Nat)
    (h : k ≠ k2) : countsGet (countsSet m k v) k2 = countsGet m k2 := by
  have hkk : (k == k2) = false := by simpa using h
  induction m with
  | nil => simp [countsSet, countsGet, List.find?, hkk]
  | cons p m ih =>
    by_cases hp : p.1 == k
    · have hpk : p.1 = k := by simpa using hp
      simp [countsSet, hp, countsGet, List.find?, hpk, hkk]
    · simp only [countsSet, hp, if_false]
      by_cases hp2 : p.1 == k2
      · simp [countsGet, List.find?, hp2]
      · simp only [countsGet, List.find?, hp2]
        exact ih

set_option maxHeartbeats 1600000 in
/-- The run of refs the provision loop assigns, per base slug: starting
from counter state `counts`, the provisions whose base is `b` receive the
consecutive occurrence refs from `countsGet counts b` on. -/
theorem buildProvisions_refs (htmlById : List (Int × String))
    (articles : List StructuredArticle) : ∀ (counts : List (String × Nat))
    (b : String),
    ∃ n, ((buildProvisions htmlById articles counts).filter
        (fun p => baseOf p == b)).map (·.provision_ref) =
      (List.range n).map (fun j => mkRef b (countsGet counts b + j)) := by
  induction articles with
  | nil => intro counts b; exact ⟨0, by simp [buildProvisions]⟩
  | cons article rest ih =>
    intro counts b
    unfold buildProvisions
    rcases hh : mapGet htmlById article.id with _ | html
    · exact ih counts b
    · dsimp only
      cases hhe : html.isEmpty
      · cases hce : (htmlToPlainText html).isEmpty
        · rcases hsec : extractSection article.name article.chapter
            with _ | sec
          · exact ih counts b
          · dsimp only
            simp only [if_neg Bool.false_ne_true]
            by_cases hb : ("art" ++ slugifySection sec : String) = b
            · subst hb
              obtain ⟨n, hrest⟩ :=
                ih (countsSet counts ("art" ++ slugifySection sec)
                    (countsGet counts ("art" ++ slugifySection sec) + 1))
                  ("art" ++ slugifySection sec)
              rw [countsGet_set_self] at hrest
              refine ⟨n + 1, ?_⟩
              have hfilter : ∀ (ref : String) (ch : Option String)
                  (ttl cnt : String),
                  (baseOf ⟨ref, ch, sec, ttl, cnt⟩ ==
                    ("art" ++ slugifySection sec : String)) = true := by
                intro ref ch ttl cnt
                simp [baseOf]
              rw [List.filter_cons]
              rw [hfilter]
              rw [if_pos rfl]
              rw [List.map_cons, hrest]
              rw [List.range_succ_eq_map]
              rw [List.map_cons, List.map_map]
              refine congr_arg₂ List.cons ?_ ?_
              · simp [mkRef]
              · apply List.map_congr_left
                intro j hj
                simp only [Function.comp_apply]
                exact congrArg (mkRef ("art" ++ slugifySection sec))
                  (by omega)
            · obtain ⟨n, hrest⟩ :=
                ih (countsSet counts ("art" ++ slugifySection sec)
                    (countsGet counts ("art" ++ slugifySection sec) + 1)) b
              refine ⟨n, ?_⟩
              have hfilter : ∀ (ref : String) (ch : Option String)
                  (ttl cnt : String),
                  (baseOf ⟨ref, ch, sec, ttl, cnt⟩ == b) = false := by
                intro ref ch ttl cnt
                have : baseOf ⟨ref, ch, sec, ttl, cnt⟩ =
                    "art" ++ slugifySection sec := by simp [baseOf]
                rw [this]
                exact beq_eq_false_iff_ne.mpr hb
              rw [List.filter_cons, hfilter, if_neg Bool.false_ne_true]
              rw [countsGet_set_ne _ _ _ _ hb] at hrest
              exact hrest
        · exact ih counts b
      · exact ih counts b


/-- C8 (amended): within one parsed act, the occurrences of each base
slug receive, in order, the bare slug and then the suffixes `-2`, `-3`,
…, so refs sharing a base slug are pairwise distinct; refs may still
collide across different base slugs (see the counterexample, where a base
slug textually equals another base's suffixed form). -/
theorem C8_provision_ref_suffixes (response : LeyChileResponse)
    (act : ActIndexEntry) (today b : String) :
    ∃ n,
      (((parseLeyChileResponse response act today).provisions.filter
          (fun p => baseOf p == b)).map (·.provision_ref)) =
        (List.range n).map (fun j => mkRef b j) ∧
      (((parseLeyChileResponse response act today).provisions.filter
          (fun p => baseOf p == b)).map (·.provision_ref)).Nodup := by
  have hprov : (parseLeyChileResponse response act today).provisions =
      buildProvisions (collectHtmlById (response.html.getD []) [])
        (if (collectArticlesFromStructure
              (response.estructura.getD []) []).isEmpty then
          collectArticlesFromHtml (response.html.getD []) none
         else collectArticlesFromStructure (response.estructura.getD []) [])
        [] := rfl
  obtain ⟨n, hn⟩ := buildProvisions_refs
    (collectHtmlById (response.html.getD []) [])
    (if (collectArticlesFromStructure
          (response.estructura.getD []) []).isEmpty then
      collectArticlesFromHtml (response.html.getD []) none
     else collectArticlesFromStructure (response.estructura.getD []) [])
    [] b
  rw [hprov]
  have hzero : countsGet [] b = 0 := by simp [countsGet]
  rw [hzero] at hn
  simp only [Nat.zero_add] at hn
  exact ⟨n, hn, hn ▸ List.Nodup.map (mkRef_injective b) (List.nodup_range n)⟩

end ChileanLaw
